import Mathlib

/-!
Verification development for the `Secure-and-private-ai` repository
(`intro_to_pytorch/Part 3 - Training Neural Networks (Exercises).ipynb`,
which also contains the "Saving and Loading Models" notebook).

The repository is glue code over an external ML framework.  We shallowly
embed the repository's own logic — the training-loop cell, the checkpoint
dictionary, `load_checkpoint` — directly from the source, and model the
external framework operations it calls (autograd gradient accumulation,
`optimizer.zero_grad`, `optimizer.step`, `load_state_dict`, `torch.save`,
and the `fc_model.Network` class, none of which live under `src/`) from the
specification's contracts.  Numeric tensor entries are idealised as
rationals.
-/

namespace SPAI

/-- A tensor: a shape (list of dimension sizes) together with its flat
row-major data. -/
structure Tensor where
  shape : List Nat
  data : List ℚ
deriving DecidableEq

/-- Number of elements a shape declares. -/
def Tensor.numel (t : Tensor) : Nat := t.shape.foldr (fun a b => a * b) 1

/-- Modelled from the spec: `images.view(images.shape[0], -1)` — reshape to
two dimensions keeping the first dimension and the data (element order
preserved, no copy). This is the flattening used by the training loop. -/
def Tensor.viewFlatten (t : Tensor) : Tensor :=
  ⟨[t.shape.headD 0, t.numel / t.shape.headD 0], t.data⟩

/-- Modelled from the spec: in-place `images.resize_(64, 784)` — the tensor
takes the new shape; data is truncated to the new element count, or grown
with unspecified storage contents (modelled by the `junk` supply) when the
new count exceeds the old one. -/
def Tensor.resizeTo (t : Tensor) (s : List Nat) (junk : Nat → ℚ) : Tensor :=
  let n := s.foldr (fun a b => a * b) 1
  ⟨s, t.data.take n ++ (List.range (n - t.data.length)).map junk⟩

/-- Optimizer-visible state: the flat vector of all differentiable
parameters and their accumulated gradient buffer. -/
structure OptState where
  params : List ℚ
  grads : List ℚ
deriving DecidableEq

/-- One batch from the loader: an image tensor and its target labels. -/
structure Batch where
  images : Tensor
  labels : List Nat
deriving DecidableEq

/-- Modelled from the spec: the external framework's differentiable model.
`forwardFn` is the model's forward evaluation, `criterion` the scalar loss,
and `gradFn` the gradient of the loss in the parameters that
`loss.backward()` computes (automatic differentiation is external). -/
structure AutogradModel where
  forwardFn : List ℚ → Tensor → Tensor
  criterion : Tensor → List Nat → ℚ
  gradFn : List ℚ → Tensor → List Nat → List ℚ

/-- Modelled from the spec: `optimizer.zero_grad()` clears the accumulated
gradient state. -/
def zero_grad (s : OptState) : OptState :=
  ⟨s.params, List.replicate s.params.length 0⟩

/-- Pointwise vector addition (gradient accumulation). -/
def addVec (a b : List ℚ) : List ℚ := List.zipWith (fun x y => x + y) a b

/-- Modelled from the spec: `loss.backward()` ADDS the newly computed
gradient into the accumulated gradient buffer (the framework accumulates
gradients across backward passes). -/
def backwardPass (M : AutogradModel) (s : OptState) (images : Tensor)
    (labels : List Nat) : OptState :=
  ⟨s.params, addVec s.grads (M.gradFn s.params images labels)⟩

/-- Modelled from the spec: `optimizer.step()` for `optim.SGD` — every
parameter is updated to `p - lr * grad` using the current gradient buffer. -/
def sgdStep (lr : ℚ) (s : OptState) : OptState :=
  ⟨List.zipWith (fun p gr => p - lr * gr) s.params s.grads, s.grads⟩

/-- The training-pass body of the training loop cell, translated line by
line: flatten the images, `optimizer.zero_grad()`, forward pass, loss,
`loss.backward()`, `optimizer.step()`; the step also reports the batch's
scalar loss (`loss.item()`). -/
def trainingStep (M : AutogradModel) (lr : ℚ) (s : OptState) (b : Batch) :
    OptState × ℚ :=
  let images := b.images.viewFlatten
  let g0 : List ℚ := List.replicate s.params.length 0
  let loss := M.criterion (M.forwardFn s.params images) b.labels
  let g1 := List.zipWith (fun x y => x + y) g0 (M.gradFn s.params images b.labels)
  let p1 := List.zipWith (fun p gr => p - lr * gr) s.params g1
  (⟨p1, g1⟩, loss)

/-- The same training pass with the `optimizer.zero_grad()` line omitted —
the documented pitfall: the backward pass then adds onto whatever gradient
state was already accumulated. -/
def stepNoZero (M : AutogradModel) (lr : ℚ) (s : OptState) (b : Batch) :
    OptState × ℚ :=
  let images := b.images.viewFlatten
  let loss := M.criterion (M.forwardFn s.params images) b.labels
  let g1 := List.zipWith (fun x y => x + y) s.grads (M.gradFn s.params images b.labels)
  let p1 := List.zipWith (fun p gr => p - lr * gr) s.params g1
  (⟨p1, g1⟩, loss)

/-- One epoch of the training loop cell: fold the training pass over the
loader's batches, accumulating `running_loss += loss.item()` from 0. -/
def runEpoch (M : AutogradModel) (lr : ℚ) (s : OptState)
    (batches : List Batch) : OptState × ℚ :=
  batches.foldl
    (fun acc b =>
      let r := trainingStep M lr acc.1 b
      (r.1, acc.2 + r.2))
    (s, 0)

/-- The per-batch scalar loss values produced along the epoch's trajectory,
in loader order. -/
def epochLosses (M : AutogradModel) (lr : ℚ) : OptState → List Batch → List ℚ
  | _, [] => []
  | s, b :: rest =>
      let r := trainingStep M lr s b
      r.2 :: epochLosses M lr r.1 rest

/-- The figure printed at the end of each epoch:
`running_loss / len(trainloader)`. -/
def reportedLoss (M : AutogradModel) (lr : ℚ) (s : OptState)
    (batches : List Batch) : ℚ :=
  (runEpoch M lr s batches).2 / (batches.length : ℚ)

/-- Names of the parameters in `fc_model.Network`'s state dict, as shown by
the notebook (`hidden_layers.i.weight`, `hidden_layers.i.bias`,
`output.weight`, `output.bias`). -/
inductive ParamName where
  | hiddenWeight : Nat → ParamName
  | hiddenBias : Nat → ParamName
  | outputWeight : ParamName
  | outputBias : ParamName
deriving DecidableEq

/-- Modelled from the spec: an `nn.Linear` layer — declared `in_features`
and `out_features`, a weight tensor of shape `[out, in]` and a bias tensor
of shape `[out]`. -/
structure Linear where
  in_features : Nat
  out_features : Nat
  weight : Tensor
  bias : Tensor
deriving DecidableEq

/-- Modelled from the spec: constructing a fresh `nn.Linear(inF, outF)`
(initial parameter values are irrelevant to the claims; zeros here). -/
def Linear.new (inF outF : Nat) : Linear :=
  ⟨inF, outF, ⟨[outF, inF], List.replicate (outF * inF) 0⟩,
    ⟨[outF], List.replicate outF 0⟩⟩

/-- Modelled from the spec: the `fc_model.Network` class — declared input
size, output size, a list of hidden `nn.Linear` layers, and the output
`nn.Linear` layer (the notebook's printout of the module tree). -/
structure Network where
  input_size : Nat
  output_size : Nat
  hidden_layers : List Linear
  output : Linear
deriving DecidableEq

/-- The chain of hidden layers: widths `[h0, h1, ...]` give layers
`Linear(input, h0), Linear(h0, h1), ...`. -/
def mkLayers : Nat → List Nat → List Linear
  | _, [] => []
  | inF, h :: rest => Linear.new inF h :: mkLayers h rest

/-- The feature count feeding the output layer: the last hidden width, or
the input size when there are no hidden layers. -/
def lastSize : Nat → List Nat → Nat
  | inF, [] => inF
  | _, h :: rest => lastSize h rest

/-- Modelled from the spec: `fc_model.Network(input_size, output_size,
hidden_layers)` builds the chained hidden layers and the output layer. -/
def Network.new (input output : Nat) (hidden : List Nat) : Network :=
  ⟨input, output, mkLayers input hidden, Linear.new (lastSize input hidden) output⟩

/-- State-dict entries contributed by the hidden layers starting at layer
index `i`. -/
def sdFrom : Nat → List Linear → List (ParamName × Tensor)
  | _, [] => []
  | i, l :: rest =>
      (.hiddenWeight i, l.weight) :: (.hiddenBias i, l.bias) :: sdFrom (i + 1) rest

/-- Modelled from the spec: `model.state_dict()` — the ordered mapping from
parameter name to tensor, exactly the keys the notebook prints. -/
def Network.state_dict (m : Network) : List (ParamName × Tensor) :=
  sdFrom 0 m.hidden_layers ++
    [(.outputWeight, m.output.weight), (.outputBias, m.output.bias)]

/-- Dictionary lookup in a state dict. -/
def findTensor : List (ParamName × Tensor) → ParamName → Option Tensor
  | [], _ => none
  | (k, t) :: rest, n => if k = n then some t else findTensor rest n

/-- The error cases `load_state_dict` reports, as shown in the notebook's
recorded `RuntimeError`: a size mismatch naming the parameter with the
saved shape and the current model's shape, a key the model expects but the
saved mapping lacks, and a saved key the model does not have. -/
inductive LoadError where
  | sizeMismatch : ParamName → List Nat → List Nat → LoadError
  | missingKey : ParamName → LoadError
  | unexpectedKey : ParamName → LoadError
deriving DecidableEq

/-- Check one model parameter against the saved mapping: missing key, or
shape disagreement between the saved tensor and the model's tensor. -/
def checkOne (sd : List (ParamName × Tensor)) (e : ParamName × Tensor) :
    List LoadError :=
  match findTensor sd e.1 with
  | none => [.missingKey e.1]
  | some t => if t.shape = e.2.shape then [] else [.sizeMismatch e.1 t.shape e.2.shape]

/-- All errors strict `load_state_dict` collects: per-parameter checks over
the model's own state dict, then saved keys the model does not expect. -/
def checkErrors (m : Network) (sd : List (ParamName × Tensor)) : List LoadError :=
  m.state_dict.flatMap (checkOne sd) ++
    sd.flatMap (fun e =>
      if (findTensor m.state_dict e.1).isSome then [] else [.unexpectedKey e.1])

/-- Copy the saved tensors of hidden layer `i` into that layer; parameters
without a saved entry keep their current tensor. -/
def copyLinear (sd : List (ParamName × Tensor)) (i : Nat) (l : Linear) : Linear :=
  { l with
    weight := (findTensor sd (.hiddenWeight i)).getD l.weight,
    bias := (findTensor sd (.hiddenBias i)).getD l.bias }

/-- Copy saved tensors into the hidden layers (layer index `i` onward). -/
def copyLayers (sd : List (ParamName × Tensor)) : Nat → List Linear → List Linear
  | _, [] => []
  | i, l :: rest => copyLinear sd i l :: copyLayers sd (i + 1) rest

/-- Copy every saved tensor into the correspondingly named parameter. -/
def copyParams (m : Network) (sd : List (ParamName × Tensor)) : Network :=
  { m with
    hidden_layers := copyLayers sd 0 m.hidden_layers,
    output :=
      { m.output with
        weight := (findTensor sd .outputWeight).getD m.output.weight,
        bias := (findTensor sd .outputBias).getD m.output.bias } }

/-- Modelled from the spec: strict `model.load_state_dict(sd)` — if any
check fails the call raises with the full list of errors; otherwise each
saved tensor is copied into the corresponding named parameter. -/
def Network.load_state_dict (m : Network) (sd : List (ParamName × Tensor)) :
    Except (List LoadError) Network :=
  if checkErrors m sd = [] then .ok (copyParams m sd) else .error (checkErrors m sd)

/-- The checkpoint mapping saved by the notebook. -/
structure Checkpoint where
  input_size : Nat
  output_size : Nat
  hidden_layers : List Nat
  state_dict : List (ParamName × Tensor)
deriving DecidableEq

/-- The notebook's checkpoint cell, translated literally: `input_size` and
`output_size` are the literals 784 and 10, `hidden_layers` is
`[each.out_features for each in model.hidden_layers]`, and `state_dict` is
`model.state_dict()`. -/
def mkCheckpoint (m : Network) : Checkpoint :=
  ⟨784, 10, m.hidden_layers.map (fun l => l.out_features), m.state_dict⟩

/-- The notebook's `load_checkpoint`: rebuild a `fc_model.Network` of the
declared shape and load the saved state dict into it. -/
def load_checkpoint (c : Checkpoint) : Except (List LoadError) Network :=
  (Network.new c.input_size c.output_size c.hidden_layers).load_state_dict c.state_dict

/-- True exactly when reconstruction did not raise. -/
def loadSucceeds : Except (List LoadError) Network → Bool
  | .ok _ => true
  | .error _ => false

/-- Overwrite a tensor's data in place, keeping its shape (used to express
"any assignment of parameter values" to a model; an assignment of the wrong
length leaves the tensor unchanged, so shapes are preserved always). -/
def setT (t : Tensor) (d : List ℚ) : Tensor :=
  if d.length = t.data.length then ⟨t.shape, d⟩ else t

/-- Assign data to both tensors of hidden layer `i`. -/
def setLinear (assign : ParamName → List ℚ) (i : Nat) (l : Linear) : Linear :=
  { l with
    weight := setT l.weight (assign (.hiddenWeight i)),
    bias := setT l.bias (assign (.hiddenBias i)) }

/-- Assign data to all hidden layers, numbering from `i`. -/
def setLayers (assign : ParamName → List ℚ) : Nat → List Linear → List Linear
  | _, [] => []
  | i, l :: rest => setLinear assign i l :: setLayers assign (i + 1) rest

/-- Assign arbitrary parameter values to every parameter of a model. -/
def Network.setData (m : Network) (assign : ParamName → List ℚ) : Network :=
  { m with
    hidden_layers := setLayers assign 0 m.hidden_layers,
    output :=
      { m.output with
        weight := setT m.output.weight (assign .outputWeight),
        bias := setT m.output.bias (assign .outputBias) } }

/-- Modelled from the spec: `torch.save(obj, path)` on the filesystem — the
file at `path` is fully replaced by the new record. -/
def torchSave (fs : String → Option Checkpoint) (path : String)
    (c : Checkpoint) : String → Option Checkpoint :=
  fun q => if q = path then some c else fs q

/-- Modelled from the spec: `torch.load(path)` reads the record currently
at `path`. -/
def torchLoad (fs : String → Option Checkpoint) (path : String) :
    Option Checkpoint := fs path

/-- A tiny concrete autograd model used to instantiate theorems: identity
forward pass, constant loss 1, and the identity map as the gradient. -/
def M0 : AutogradModel :=
  ⟨fun _ t => t, fun _ _ => 1, fun p _ _ => p⟩

/-- A tiny concrete batch used to instantiate theorems. -/
def b0 : Batch := ⟨⟨[1, 1], [3]⟩, [0]⟩

theorem addVec_replicate_zero (v : List ℚ) (n : Nat) (h : v.length = n) :
    List.zipWith (fun x y => x + y) (List.replicate n (0 : ℚ)) v = v := by
  induction v generalizing n with
  | nil => cases h; rfl
  | cons x xs ih =>
      cases h
      rw [List.length_cons, List.replicate_succ, List.zipWith_cons_cons, zero_add,
        ih xs.length rfl]

theorem zipWith_add_eq_right (a b : List ℚ) (hl : a.length = b.length) :
    List.zipWith (fun x y => x + y) a b = b ↔ a = List.replicate a.length 0 := by
  induction a generalizing b with
  | nil =>
      cases b with
      | nil => simp
      | cons y ys => simp at hl
  | cons x xs ih =>
      cases b with
      | nil => simp at hl
      | cons y ys =>
          simp only [List.zipWith, List.length_cons, List.replicate, List.cons.injEq]
          rw [ih ys (by simpa using hl)]
          constructor
          · rintro ⟨h1, h2⟩
            exact ⟨by linarith [add_left_eq_self.mp h1], h2⟩
          · rintro ⟨h1, h2⟩
            exact ⟨by rw [h1, zero_add], h2⟩

theorem zipWith_get?_some {α β γ : Type} (f : α → β → γ) (a : List α)
    (b : List β) (k : Nat) (x : α) (y : β) (hx : a.get? k = some x)
    (hy : b.get? k = some y) : (List.zipWith f a b).get? k = some (f x y) := by
  induction a generalizing b k with
  | nil => simp at hx
  | cons p ps ih =>
      cases b with
      | nil => simp at hy
      | cons q qs =>
          cases k with
          | zero =>
              simp only [List.get?] at hx hy
              cases hx; cases hy; rfl
          | succ k =>
              simp only [List.get?] at hx hy ⊢
              exact ih qs k hx hy

/-- C3: every training step performs exactly the contract's sequence —
clear gradients, forward pass, scalar loss, backward pass, one SGD update —
in that order: the step literally equals that composition, the resulting
parameters are exactly `p - lr * grad` for the batch's gradient at the
pre-step parameters (no other parameter mutation), the gradient buffer
holds exactly that batch's gradient, and the reported loss is the
criterion of the forward output. -/
theorem trainingStep_contract (M : AutogradModel) (lr : ℚ) (s : OptState)
    (b : Batch) (hg : ∀ p i l, (M.gradFn p i l).length = p.length) :
    trainingStep M lr s b =
      (sgdStep lr (backwardPass M (zero_grad s) b.images.viewFlatten b.labels),
        M.criterion (M.forwardFn (zero_grad s).params b.images.viewFlatten) b.labels) ∧
    (trainingStep M lr s b).1.params =
      List.zipWith (fun p gr => p - lr * gr) s.params
        (M.gradFn s.params b.images.viewFlatten b.labels) ∧
    (trainingStep M lr s b).1.grads =
      M.gradFn s.params b.images.viewFlatten b.labels ∧
    (trainingStep M lr s b).2 =
      M.criterion (M.forwardFn s.params b.images.viewFlatten) b.labels := by
  refine ⟨rfl, ?_, ?_, rfl⟩
  · show List.zipWith _ s.params
        (List.zipWith (fun x y => x + y) (List.replicate s.params.length 0)
          (M.gradFn s.params b.images.viewFlatten b.labels)) = _
    rw [addVec_replicate_zero _ _ (hg s.params b.images.viewFlatten b.labels)]
  · show List.zipWith (fun x y => x + y) (List.replicate s.params.length 0)
        (M.gradFn s.params b.images.viewFlatten b.labels) = _
    exact addVec_replicate_zero _ _ (hg s.params b.images.viewFlatten b.labels)

/-- Witness for C3 at a concrete model, state and batch. -/
theorem trainingStep_contract_witness :
    (∀ p i l, (M0.gradFn p i l).length = p.length) ∧
    (trainingStep M0 1 ⟨[1], [2]⟩ b0 =
      (sgdStep 1 (backwardPass M0 (zero_grad ⟨[1], [2]⟩) b0.images.viewFlatten b0.labels),
        M0.criterion (M0.forwardFn (zero_grad ⟨[1], [2]⟩).params b0.images.viewFlatten) b0.labels) ∧
    (trainingStep M0 1 ⟨[1], [2]⟩ b0).1.params =
      List.zipWith (fun p gr => p - (1 : ℚ) * gr) [1]
        (M0.gradFn [1] b0.images.viewFlatten b0.labels) ∧
    (trainingStep M0 1 ⟨[1], [2]⟩ b0).1.grads =
      M0.gradFn [1] b0.images.viewFlatten b0.labels ∧
    (trainingStep M0 1 ⟨[1], [2]⟩ b0).2 =
      M0.criterion (M0.forwardFn [1] b0.images.viewFlatten) b0.labels) :=
  ⟨fun _ _ _ => rfl, trainingStep_contract M0 1 ⟨[1], [2]⟩ b0 (fun _ _ _ => rfl)⟩

/-- C4: starting from identical parameters and cleared gradients, over two
consecutive training passes on the same batch the gradient present after
the second backward pass is the SUM of the two batches' gradients when the
gradient-clearing step is omitted, while it is only the second gradient
when clearing is performed — and the two differ whenever the first batch's
gradient is non-zero (the parameter trajectory after the first pass is the
same in both runs, so the comparison is at the same intermediate state). -/
theorem noZero_accumulates (M : AutogradModel) (lr : ℚ) (p : List ℚ) (b : Batch)
    (hg : ∀ q i l, (M.gradFn q i l).length = q.length)
    (hnz : M.gradFn p b.images.viewFlatten b.labels ≠ List.replicate p.length 0) :
    (stepNoZero M lr ⟨p, List.replicate p.length 0⟩ b).1 =
      (trainingStep M lr ⟨p, List.replicate p.length 0⟩ b).1 ∧
    (stepNoZero M lr (stepNoZero M lr ⟨p, List.replicate p.length 0⟩ b).1 b).1.grads =
      addVec (M.gradFn p b.images.viewFlatten b.labels)
        (M.gradFn (stepNoZero M lr ⟨p, List.replicate p.length 0⟩ b).1.params
          b.images.viewFlatten b.labels) ∧
    (trainingStep M lr (trainingStep M lr ⟨p, List.replicate p.length 0⟩ b).1 b).1.grads =
      M.gradFn (stepNoZero M lr ⟨p, List.replicate p.length 0⟩ b).1.params
        b.images.viewFlatten b.labels ∧
    (stepNoZero M lr (stepNoZero M lr ⟨p, List.replicate p.length 0⟩ b).1 b).1.grads ≠
      (trainingStep M lr (trainingStep M lr ⟨p, List.replicate p.length 0⟩ b).1 b).1.grads := by
  have h0 := addVec_replicate_zero (M.gradFn p b.images.viewFlatten b.labels) p.length
    (hg p b.images.viewFlatten b.labels)
  simp only [stepNoZero, trainingStep, addVec]
  rw [h0]
  refine ⟨trivial, rfl, ?_, ?_⟩
  · exact addVec_replicate_zero _ _ (hg _ _ _)
  · rw [addVec_replicate_zero _ _ (hg _ _ _)]
    intro heq
    have hlen : (M.gradFn p b.images.viewFlatten b.labels).length =
        (M.gradFn (List.zipWith (fun q gr => q - lr * gr) p
          (M.gradFn p b.images.viewFlatten b.labels)) b.images.viewFlatten b.labels).length := by
      simp [hg, List.length_zipWith]
    rw [zipWith_add_eq_right _ _ hlen] at heq
    rw [hg p b.images.viewFlatten b.labels] at heq
    exact hnz heq

/-- Witness for C4 at a concrete model, parameters and batch. -/
theorem noZero_accumulates_witness :
    ((∀ q i l, (M0.gradFn q i l).length = q.length) ∧
      M0.gradFn [1] b0.images.viewFlatten b0.labels ≠ List.replicate ([1] : List ℚ).length 0) ∧
    ((stepNoZero M0 1 ⟨[1], List.replicate ([1] : List ℚ).length 0⟩ b0).1 =
      (trainingStep M0 1 ⟨[1], List.replicate ([1] : List ℚ).length 0⟩ b0).1 ∧
    (stepNoZero M0 1 (stepNoZero M0 1 ⟨[1], List.replicate ([1] : List ℚ).length 0⟩ b0).1 b0).1.grads =
      addVec (M0.gradFn [1] b0.images.viewFlatten b0.labels)
        (M0.gradFn (stepNoZero M0 1 ⟨[1], List.replicate ([1] : List ℚ).length 0⟩ b0).1.params
          b0.images.viewFlatten b0.labels) ∧
    (trainingStep M0 1 (trainingStep M0 1 ⟨[1], List.replicate ([1] : List ℚ).length 0⟩ b0).1 b0).1.grads =
      M0.gradFn (stepNoZero M0 1 ⟨[1], List.replicate ([1] : List ℚ).length 0⟩ b0).1.params
        b0.images.viewFlatten b0.labels ∧
    (stepNoZero M0 1 (stepNoZero M0 1 ⟨[1], List.replicate ([1] : List ℚ).length 0⟩ b0).1 b0).1.grads ≠
      (trainingStep M0 1 (trainingStep M0 1 ⟨[1], List.replicate ([1] : List ℚ).length 0⟩ b0).1 b0).1.grads) :=
  ⟨⟨fun _ _ _ => rfl, by decide⟩,
    noZero_accumulates M0 1 [1] b0 (fun _ _ _ => rfl) (by decide)⟩

/-- C6: one training step with a non-zero learning rate updates each
parameter to its value minus the learning rate times that parameter's
gradient, so every parameter whose gradient entry is non-zero changes
relative to its pre-step value. -/
theorem step_changes_params (M : AutogradModel) (lr : ℚ) (s : OptState) (b : Batch)
    (hg : ∀ q i l, (M.gradFn q i l).length = q.length)
    (hlr : lr ≠ 0) (k : Nat) (pk gk : ℚ)
    (hp : s.params.get? k = some pk)
    (hgk : (M.gradFn s.params b.images.viewFlatten b.labels).get? k = some gk)
    (hnz : gk ≠ 0) :
    (trainingStep M lr s b).1.params.get? k = some (pk - lr * gk) ∧
    pk - lr * gk ≠ pk := by
  constructor
  · show (List.zipWith (fun q gr => q - lr * gr) s.params
        (List.zipWith (fun x y => x + y) (List.replicate s.params.length 0)
          (M.gradFn s.params b.images.viewFlatten b.labels))).get? k = _
    rw [addVec_replicate_zero _ _ (hg s.params b.images.viewFlatten b.labels)]
    exact zipWith_get?_some _ _ _ k pk gk hp hgk
  · intro h
    exact mul_ne_zero hlr hnz (sub_eq_self.mp h)

/-- Witness for C6 at a concrete model, state and batch. -/
theorem step_changes_params_witness :
    ((∀ q i l, (M0.gradFn q i l).length = q.length) ∧ (1 : ℚ) ≠ 0 ∧
      ([1] : List ℚ).get? 0 = some 1 ∧
      (M0.gradFn [1] b0.images.viewFlatten b0.labels).get? 0 = some 1 ∧ (1 : ℚ) ≠ 0) ∧
    ((trainingStep M0 1 ⟨[1], [5]⟩ b0).1.params.get? 0 = some (1 - 1 * 1) ∧
      (1 : ℚ) - 1 * 1 ≠ 1) :=
  ⟨⟨fun _ _ _ => rfl, by decide, rfl, rfl, by decide⟩,
    step_changes_params M0 1 ⟨[1], [5]⟩ b0 (fun _ _ _ => rfl) (by decide) 0 1 1 rfl rfl
      (by decide)⟩

/-- C9: the outcome of one training step does not depend on the previously
accumulated gradient state — the step clears gradients first, so runs from
identical parameters, learning rate and batch but arbitrarily different
gradient buffers produce identical post-update states (in particular
identical parameters) and identical losses. -/
theorem trainingStep_ignores_prior_grads (M : AutogradModel) (lr : ℚ)
    (p g1 g2 : List ℚ) (b : Batch) :
    trainingStep M lr ⟨p, g1⟩ b = trainingStep M lr ⟨p, g2⟩ b := rfl

theorem runEpoch_loss_aux (M : AutogradModel) (lr : ℚ) (batches : List Batch)
    (s : OptState) (a : ℚ) :
    (batches.foldl
      (fun acc b =>
        let r := trainingStep M lr acc.1 b
        (r.1, acc.2 + r.2))
      (s, a)).2 = a + (epochLosses M lr s batches).sum := by
  induction batches generalizing s a with
  | nil => simp [epochLosses]
  | cons b rest ih =>
      simp only [List.foldl, epochLosses, List.sum_cons]
      rw [ih]
      ring

/-- C5: the loss reported at the end of an epoch is exactly the sum of the
per-batch scalar losses accumulated over the epoch's batches divided by
the number of batches in the loader (and there is one accumulated loss
value per batch). -/
theorem reportedLoss_is_mean (M : AutogradModel) (lr : ℚ) (s : OptState)
    (batches : List Batch) :
    (runEpoch M lr s batches).2 = (epochLosses M lr s batches).sum ∧
    reportedLoss M lr s batches =
      (epochLosses M lr s batches).sum / (batches.length : ℚ) ∧
    (epochLosses M lr s batches).length = batches.length := by
  have h := runEpoch_loss_aux M lr batches s 0
  refine ⟨by simpa [runEpoch] using h, by simp [reportedLoss, runEpoch] at h ⊢; rw [h], ?_⟩
  clear h
  induction batches generalizing s with
  | nil => rfl
  | cons b rest ih => simpa [epochLosses] using ih _

/-- C10: on a batch of `n` images of shape `[n, 1, 28, 28]` the training
loop's `images.view(images.shape[0], -1)` yields shape `[n, 784]` with the
pixel data preserved verbatim for every `n`, while the one-off
demonstration's in-place `images.resize_(64, 784)` always yields shape
`[64, 784]` and preserves the data exactly when the batch has exactly 64
images. -/
theorem view_vs_resize (n : Nat) (hn : 0 < n) (data : List ℚ)
    (hd : data.length = n * 784) (junk : Nat → ℚ) :
    (Tensor.viewFlatten ⟨[n, 1, 28, 28], data⟩).shape = [n, 784] ∧
    (Tensor.viewFlatten ⟨[n, 1, 28, 28], data⟩).data = data ∧
    (Tensor.resizeTo ⟨[n, 1, 28, 28], data⟩ [64, 784] junk).shape = [64, 784] ∧
    ((Tensor.resizeTo ⟨[n, 1, 28, 28], data⟩ [64, 784] junk).data = data ↔ n = 64) := by
  have hnum : (Tensor.numel ⟨[n, 1, 28, 28], data⟩) = n * 784 := by
    simp [Tensor.numel]
  have h50 : ([64, 784] : List Nat).foldr (fun a b => a * b) 1 = 50176 := by norm_num
  refine ⟨?_, rfl, rfl, ?_, ?_⟩
  · simp only [Tensor.viewFlatten, hnum]
    rw [show ([n, 1, 28, 28] : List Nat).headD 0 = n from rfl,
      Nat.mul_div_cancel_left 784 hn]
  · intro h
    have hlen := congrArg List.length h
    simp only [Tensor.resizeTo, h50, List.length_append, List.length_take,
      List.length_map, List.length_range, hd] at hlen
    omega
  · intro h
    subst h
    have hlen : data.length = 50176 := by rw [hd]
    simp only [Tensor.resizeTo, h50, hlen, Nat.sub_self, List.range_zero, List.map_nil,
      List.append_nil]
    exact List.take_of_length_le (le_of_eq hlen)

/-- Witness for C10 at a one-image batch of zeros. -/
theorem view_vs_resize_witness :
    (0 < 1 ∧ (List.replicate 784 (0 : ℚ)).length = 1 * 784) ∧
    ((Tensor.viewFlatten ⟨[1, 1, 28, 28], List.replicate 784 0⟩).shape = [1, 784] ∧
    (Tensor.viewFlatten ⟨[1, 1, 28, 28], List.replicate 784 0⟩).data = List.replicate 784 0 ∧
    (Tensor.resizeTo ⟨[1, 1, 28, 28], List.replicate 784 0⟩ [64, 784] (fun _ => 0)).shape
      = [64, 784] ∧
    ((Tensor.resizeTo ⟨[1, 1, 28, 28], List.replicate 784 0⟩ [64, 784] (fun _ => 0)).data
      = List.replicate 784 0 ↔ 1 = 64)) :=
  ⟨⟨Nat.one_pos, by rw [List.length_replicate, one_mul]⟩,
    view_vs_resize 1 Nat.one_pos (List.replicate 784 0)
      (by rw [List.length_replicate, one_mul]) (fun _ => 0)⟩

/-- C7: saving a checkpoint to a path that already holds one fully replaces
the previous contents — a subsequent load at that path observes exactly the
most recently saved mapping, and every other path is untouched. -/
theorem save_replaces (fs : String → Option Checkpoint) (path q : String)
    (c1 c2 : Checkpoint) (hq : q ≠ path) :
    torchLoad (torchSave (torchSave fs path c1) path c2) path = some c2 ∧
    torchLoad (torchSave (torchSave fs path c1) path c2) q = fs q := by
  constructor
  · simp [torchLoad, torchSave]
  · simp [torchLoad, torchSave, hq]

theorem findTensor_mem : ∀ (sd : List (ParamName × Tensor)) (n : ParamName) (t : Tensor),
    findTensor sd n = some t → (n, t) ∈ sd
  | [], _, _, h => by simp [findTensor] at h
  | (k, u) :: rest, n, t, h => by
      rw [findTensor] at h
      by_cases hk : k = n
      · rw [if_pos hk] at h
        cases h
        subst hk
        exact List.mem_cons_self _ _
      · rw [if_neg hk] at h
        exact List.mem_cons_of_mem _ (findTensor_mem rest n t h)

theorem findTensor_cons_ne (k n : ParamName) (t : Tensor)
    (sd : List (ParamName × Tensor)) (h : k ≠ n) :
    findTensor ((k, t) :: sd) n = findTensor sd n := by
  rw [findTensor, if_neg h]

theorem sdFrom_find_hw (tail : List (ParamName × Tensor))
    (htail : ∀ j, findTensor tail (ParamName.hiddenWeight j) = none) :
    ∀ (ls : List Linear) (i k : Nat),
    findTensor (sdFrom i ls ++ tail) (.hiddenWeight (i + k)) =
      (ls.get? k).map (fun l => l.weight)
  | [], i, k => by simpa [sdFrom] using htail (i + k)
  | l :: rest, i, 0 => by simp [sdFrom, findTensor]
  | l :: rest, i, (k + 1) => by
      rw [sdFrom, List.cons_append, List.cons_append,
        findTensor_cons_ne _ _ _ _ (by simp),
        findTensor_cons_ne _ _ _ _ (by simp),
        show i + (k + 1) = (i + 1) + k by omega,
        sdFrom_find_hw tail htail rest (i + 1) k]
      rfl

theorem sdFrom_find_hb (tail : List (ParamName × Tensor))
    (htail : ∀ j, findTensor tail (ParamName.hiddenBias j) = none) :
    ∀ (ls : List Linear) (i k : Nat),
    findTensor (sdFrom i ls ++ tail) (.hiddenBias (i + k)) =
      (ls.get? k).map (fun l => l.bias)
  | [], i, k => by simpa [sdFrom] using htail (i + k)
  | l :: rest, i, 0 => by simp [sdFrom, findTensor]
  | l :: rest, i, (k + 1) => by
      rw [sdFrom, List.cons_append, List.cons_append,
        findTensor_cons_ne _ _ _ _ (by simp),
        findTensor_cons_ne _ _ _ _ (by simp),
        show i + (k + 1) = (i + 1) + k by omega,
        sdFrom_find_hb tail htail rest (i + 1) k]
      rfl

theorem sdFrom_find_skip (n : ParamName)
    (hn : ∀ j, ParamName.hiddenWeight j ≠ n ∧ ParamName.hiddenBias j ≠ n) :
    ∀ (ls : List Linear) (i : Nat) (tail : List (ParamName × Tensor)),
    findTensor (sdFrom i ls ++ tail) n = findTensor tail n
  | [], _, _ => by simp [sdFrom]
  | l :: rest, i, tail => by
      rw [sdFrom, List.cons_append, List.cons_append,
        findTensor_cons_ne _ _ _ _ (hn i).1,
        findTensor_cons_ne _ _ _ _ (hn i).2,
        sdFrom_find_skip n hn rest (i + 1) tail]

theorem find_sd_hw (m : Network) (k : Nat) :
    findTensor m.state_dict (.hiddenWeight k) =
      (m.hidden_layers.get? k).map (fun l => l.weight) := by
  have := sdFrom_find_hw
    [(.outputWeight, m.output.weight), (.outputBias, m.output.bias)]
    (fun j => rfl) m.hidden_layers 0 k
  simpa [Network.state_dict] using this

theorem find_sd_hb (m : Network) (k : Nat) :
    findTensor m.state_dict (.hiddenBias k) =
      (m.hidden_layers.get? k).map (fun l => l.bias) := by
  have := sdFrom_find_hb
    [(.outputWeight, m.output.weight), (.outputBias, m.output.bias)]
    (fun j => rfl) m.hidden_layers 0 k
  simpa [Network.state_dict] using this

theorem find_sd_ow (m : Network) :
    findTensor m.state_dict .outputWeight = some m.output.weight := by
  rw [Network.state_dict, sdFrom_find_skip _ (fun j => ⟨by simp, by simp⟩)]
  rfl

theorem find_sd_ob (m : Network) :
    findTensor m.state_dict .outputBias = some m.output.bias := by
  rw [Network.state_dict, sdFrom_find_skip _ (fun j => ⟨by simp, by simp⟩)]
  rfl

theorem mem_sdFrom : ∀ (ls : List Linear) (i : Nat) (e : ParamName × Tensor),
    e ∈ sdFrom i ls →
    ∃ k l, ls.get? k = some l ∧
      (e = (.hiddenWeight (i + k), l.weight) ∨ e = (.hiddenBias (i + k), l.bias))
  | [], i, e, h => by simp [sdFrom] at h
  | l :: rest, i, e, h => by
      rw [sdFrom] at h
      rcases List.mem_cons.mp h with h | h
      · exact ⟨0, l, rfl, Or.inl h⟩
      · rcases List.mem_cons.mp h with h | h
        · exact ⟨0, l, rfl, Or.inr h⟩
        · obtain ⟨k, l', hget, hor⟩ := mem_sdFrom rest (i + 1) e h
          refine ⟨k + 1, l', by simpa using hget, ?_⟩
          rw [show i + (k + 1) = i + 1 + k by omega]
          exact hor

theorem mem_state_dict (m : Network) (e : ParamName × Tensor) (h : e ∈ m.state_dict) :
    (∃ k l, m.hidden_layers.get? k = some l ∧
      (e = (.hiddenWeight k, l.weight) ∨ e = (.hiddenBias k, l.bias))) ∨
    e = (.outputWeight, m.output.weight) ∨ e = (.outputBias, m.output.bias) := by
  rw [Network.state_dict] at h
  rcases List.mem_append.mp h with h | h
  · obtain ⟨k, l, hget, hor⟩ := mem_sdFrom _ 0 _ h
    exact Or.inl ⟨k, l, hget, by simpa using hor⟩
  · exact Or.inr (by simpa using h)

theorem mkLayers_length : ∀ (ws : List Nat) (inF : Nat),
    (mkLayers inF ws).length = ws.length
  | [], _ => rfl
  | h :: rest, inF => by
      rw [mkLayers, List.length_cons, List.length_cons, mkLayers_length rest h]

theorem setLayers_length (assign : ParamName → List ℚ) :
    ∀ (ls : List Linear) (i : Nat), (setLayers assign i ls).length = ls.length
  | [], _ => rfl
  | l :: rest, i => by
      rw [setLayers, List.length_cons, List.length_cons, setLayers_length assign rest (i + 1)]

theorem setLayers_get? (assign : ParamName → List ℚ) :
    ∀ (ls : List Linear) (i k : Nat),
    (setLayers assign i ls).get? k = (ls.get? k).map (setLinear assign (i + k))
  | [], i, k => by simp [setLayers]
  | l :: rest, i, 0 => by simp [setLayers]
  | l :: rest, i, (k + 1) => by
      rw [setLayers, List.get?_cons_succ, List.get?_cons_succ,
        setLayers_get? assign rest (i + 1) k, show i + 1 + k = i + (k + 1) by omega]

theorem copyLayers_get? (sd : List (ParamName × Tensor)) :
    ∀ (ls : List Linear) (i k : Nat),
    (copyLayers sd i ls).get? k = (ls.get? k).map (copyLinear sd (i + k))
  | [], i, k => by simp [copyLayers]
  | l :: rest, i, 0 => by simp [copyLayers]
  | l :: rest, i, (k + 1) => by
      rw [copyLayers, List.get?_cons_succ, List.get?_cons_succ,
        copyLayers_get? sd rest (i + 1) k, show i + 1 + k = i + (k + 1) by omega]

theorem mkLayers_get?_out : ∀ (ws : List Nat) (inF k : Nat),
    ((mkLayers inF ws).get? k).map (fun l => l.out_features) = ws.get? k
  | [], _, _ => by simp [mkLayers]
  | h :: rest, inF, 0 => by simp [mkLayers, Linear.new]
  | h :: rest, inF, (k + 1) => by
      rw [mkLayers, List.get?_cons_succ, List.get?_cons_succ, mkLayers_get?_out rest h k]

theorem mkLayers_get?_bias_shape : ∀ (ws : List Nat) (inF k : Nat),
    ((mkLayers inF ws).get? k).map (fun l => l.bias.shape) =
      (ws.get? k).map (fun h => [h])
  | [], _, _ => by simp [mkLayers]
  | h :: rest, inF, 0 => by simp [mkLayers, Linear.new]
  | h :: rest, inF, (k + 1) => by
      rw [mkLayers, List.get?_cons_succ, List.get?_cons_succ,
        mkLayers_get?_bias_shape rest h k]

theorem mkLayers_get?_none (ws : List Nat) (inF k : Nat) (h : ws.get? k = none) :
    (mkLayers inF ws).get? k = none := by
  rw [List.get?_eq_none] at h ⊢
  rw [mkLayers_length]
  exact h

theorem setT_shape (t : Tensor) (d : List ℚ) : (setT t d).shape = t.shape := by
  rw [setT]
  split <;> rfl

theorem mkLayers_map_out : ∀ (ws : List Nat) (inF : Nat),
    (mkLayers inF ws).map (fun l => l.out_features) = ws
  | [], _ => rfl
  | h :: rest, inF => by
      rw [mkLayers, List.map_cons, mkLayers_map_out rest h]
      rfl

theorem setLayers_map_out (assign : ParamName → List ℚ) :
    ∀ (ls : List Linear) (i : Nat),
    (setLayers assign i ls).map (fun l => l.out_features) =
      ls.map (fun l => l.out_features)
  | [], _ => rfl
  | l :: rest, i => by
      rw [setLayers, List.map_cons, List.map_cons,
        setLayers_map_out assign rest (i + 1)]
      rfl

/-- Witness for C7 at concrete paths and checkpoints. -/
theorem save_replaces_witness :
    ("model.pth" : String) ≠ "checkpoint.pth" ∧
    (torchLoad
        (torchSave (torchSave (fun _ => none) "checkpoint.pth" ⟨784, 10, [1], []⟩)
          "checkpoint.pth" ⟨784, 10, [2], []⟩) "checkpoint.pth" =
      some ⟨784, 10, [2], []⟩ ∧
    torchLoad
        (torchSave (torchSave (fun _ => none) "checkpoint.pth" ⟨784, 10, [1], []⟩)
          "checkpoint.pth" ⟨784, 10, [2], []⟩) "model.pth" = none) :=
  ⟨by decide,
    save_replaces (fun _ => none) "checkpoint.pth" "model.pth"
      ⟨784, 10, [1], []⟩ ⟨784, 10, [2], []⟩ (by decide)⟩

theorem setData_hidden (m : Network) (assign : ParamName → List ℚ) :
    (m.setData assign).hidden_layers = setLayers assign 0 m.hidden_layers := rfl

theorem find_setData_hw (m : Network) (assign : ParamName → List ℚ) (k : Nat) :
    findTensor (m.setData assign).state_dict (.hiddenWeight k) =
      (m.hidden_layers.get? k).map (fun l => setT l.weight (assign (.hiddenWeight k))) := by
  rw [find_sd_hw, setData_hidden, setLayers_get?, Nat.zero_add]
  cases hget : m.hidden_layers.get? k with
  | none => rfl
  | some l => simp [setLinear]

theorem find_setData_hb (m : Network) (assign : ParamName → List ℚ) (k : Nat) :
    findTensor (m.setData assign).state_dict (.hiddenBias k) =
      (m.hidden_layers.get? k).map (fun l => setT l.bias (assign (.hiddenBias k))) := by
  rw [find_sd_hb, setData_hidden, setLayers_get?, Nat.zero_add]
  cases hget : m.hidden_layers.get? k with
  | none => rfl
  | some l => simp [setLinear]

theorem find_setData_ow (m : Network) (assign : ParamName → List ℚ) :
    findTensor (m.setData assign).state_dict .outputWeight =
      some (setT m.output.weight (assign .outputWeight)) := by
  rw [find_sd_ow]
  rfl

theorem find_setData_ob (m : Network) (assign : ParamName → List ℚ) :
    findTensor (m.setData assign).state_dict .outputBias =
      some (setT m.output.bias (assign .outputBias)) := by
  rw [find_sd_ob]
  rfl

theorem setData_get?_some (m : Network) (assign : ParamName → List ℚ) (k : Nat)
    (l : Linear) (hget : (m.setData assign).hidden_layers.get? k = some l) :
    ∃ l', m.hidden_layers.get? k = some l' ∧ l = setLinear assign k l' := by
  rw [setData_hidden, setLayers_get?, Nat.zero_add] at hget
  cases hmk : m.hidden_layers.get? k with
  | none => rw [hmk] at hget; cases hget
  | some l' =>
      rw [hmk] at hget
      cases hget
      exact ⟨l', rfl, rfl⟩

theorem checkErrors_setData (m : Network) (assign : ParamName → List ℚ) :
    checkErrors m (m.setData assign).state_dict = [] := by
  rw [checkErrors, List.append_eq_nil]
  constructor
  · rw [List.flatMap_eq_nil_iff]
    intro e he
    rcases mem_state_dict m e he with ⟨k, l, hget, hor | hor⟩ | hor | hor
    · subst hor
      rw [checkOne]
      simp only [find_setData_hw, hget, Option.map_some']
      rw [setT_shape, if_pos rfl]
    · subst hor
      rw [checkOne]
      simp only [find_setData_hb, hget, Option.map_some']
      rw [setT_shape, if_pos rfl]
    · subst hor
      rw [checkOne]
      simp only [find_setData_ow]
      rw [setT_shape, if_pos rfl]
    · subst hor
      rw [checkOne]
      simp only [find_setData_ob]
      rw [setT_shape, if_pos rfl]
  · rw [List.flatMap_eq_nil_iff]
    intro e he
    rcases mem_state_dict _ e he with ⟨k, l, hget, hor | hor⟩ | hor | hor
    · subst hor
      obtain ⟨l', hl', _⟩ := setData_get?_some m assign k l hget
      have hk : (findTensor m.state_dict (ParamName.hiddenWeight k)).isSome = true := by
        rw [find_sd_hw, hl']
        rfl
      simp [hk]
    · subst hor
      obtain ⟨l', hl', _⟩ := setData_get?_some m assign k l hget
      have hk : (findTensor m.state_dict (ParamName.hiddenBias k)).isSome = true := by
        rw [find_sd_hb, hl']
        rfl
      simp [hk]
    · subst hor
      have hk : (findTensor m.state_dict ParamName.outputWeight).isSome = true := by
        rw [find_sd_ow]
        rfl
      simp [hk]
    · subst hor
      have hk : (findTensor m.state_dict ParamName.outputBias).isSome = true := by
        rw [find_sd_ob]
        rfl
      simp [hk]

theorem copyParams_setData (m : Network) (assign : ParamName → List ℚ) :
    copyParams m (m.setData assign).state_dict = m.setData assign := by
  have hh : copyLayers (m.setData assign).state_dict 0 m.hidden_layers
      = setLayers assign 0 m.hidden_layers := by
    apply List.ext_get?
    intro k
    rw [copyLayers_get?, setLayers_get?]
    simp only [Nat.zero_add]
    cases hmk : m.hidden_layers.get? k with
    | none => rfl
    | some l =>
        simp only [Option.map_some']
        rw [copyLinear, setLinear, find_setData_hw, find_setData_hb, hmk]
        rfl
  have how : (findTensor (m.setData assign).state_dict .outputWeight).getD m.output.weight
      = setT m.output.weight (assign .outputWeight) := by
    rw [find_setData_ow]
    rfl
  have hob : (findTensor (m.setData assign).state_dict .outputBias).getD m.output.bias
      = setT m.output.bias (assign .outputBias) := by
    rw [find_setData_ob]
    rfl
  rw [copyParams, hh, how, hob]
  rfl

theorem load_setData (m : Network) (assign : ParamName → List ℚ) :
    m.load_state_dict (m.setData assign).state_dict = .ok (m.setData assign) := by
  rw [Network.load_state_dict, if_pos (checkErrors_setData m assign), copyParams_setData]

theorem widths_new_setData (inp outp : Nat) (hs : List Nat)
    (assign : ParamName → List ℚ) :
    ((Network.new inp outp hs).setData assign).hidden_layers.map
      (fun l => l.out_features) = hs := by
  rw [setData_hidden, setLayers_map_out]
  exact mkLayers_map_out hs inp

theorem load_checkpoint_new_setData (hs : List Nat) (assign : ParamName → List ℚ) :
    load_checkpoint (mkCheckpoint ((Network.new 784 10 hs).setData assign)) =
      .ok ((Network.new 784 10 hs).setData assign) := by
  rw [load_checkpoint,
    show (mkCheckpoint ((Network.new 784 10 hs).setData assign)).hidden_layers = hs
      from widths_new_setData 784 10 hs assign]
  exact load_setData (Network.new 784 10 hs) assign

/-- C1 (amended: the checkpoint cell hardcodes `input_size: 784` and
`output_size: 10`, so the round trip is stated for models whose input size
is 784 and output size 10, matching those literals; hidden widths and
parameter values stay universally quantified): building the checkpoint
mapping from such a model, saving it and reconstructing with
`load_checkpoint` succeeds and yields the model itself — equal declared
architecture and numerically identical parameters. -/
theorem checkpoint_round_trip (hs : List Nat) (assign : ParamName → List ℚ) :
    (mkCheckpoint ((Network.new 784 10 hs).setData assign)).input_size = 784 ∧
    (mkCheckpoint ((Network.new 784 10 hs).setData assign)).output_size = 10 ∧
    (mkCheckpoint ((Network.new 784 10 hs).setData assign)).hidden_layers = hs ∧
    load_checkpoint (mkCheckpoint ((Network.new 784 10 hs).setData assign)) =
      .ok ((Network.new 784 10 hs).setData assign) :=
  ⟨rfl, rfl, widths_new_setData 784 10 hs assign, load_checkpoint_new_setData hs assign⟩

/-- C1 counterexample: for a model whose architecture differs from the
hardcoded literals (input size 2, output size 1, hidden widths `[1]`), the
checkpoint records `input_size: 784, output_size: 10`, and reconstruction
from it fails instead of yielding a model with identical parameters. -/
theorem checkpoint_round_trip_cex :
    loadSucceeds (load_checkpoint (mkCheckpoint (Network.new 2 1 [1]))) = false := by
  decide

/-- C8 (amended: the `hidden_layers` field is indeed computed as the
`out_features` of the very model whose `state_dict` is stored, but the
`input_size`/`output_size` fields are the literals 784/10 rather than being
read from the model, so the by-construction consistency invariant — and
guaranteed `load_checkpoint` success — holds exactly for models with input
size 784 and output size 10): for every such model the saved mapping is
consistent and `load_checkpoint` on it succeeds. -/
theorem checkpoint_consistency (hs : List Nat) (assign : ParamName → List ℚ) :
    (mkCheckpoint ((Network.new 784 10 hs).setData assign)).hidden_layers =
      ((Network.new 784 10 hs).setData assign).hidden_layers.map
        (fun l => l.out_features) ∧
    loadSucceeds
      (load_checkpoint (mkCheckpoint ((Network.new 784 10 hs).setData assign))) = true := by
  refine ⟨rfl, ?_⟩
  rw [load_checkpoint_new_setData hs assign]
  rfl

/-- C8 counterexample: a checkpoint produced by the save path from a model
of input size 3 and output size 2 does not satisfy the claimed invariant —
its declared `input_size`/`output_size` are the literals 784/10, they do
not match the stored tensor shapes, and `load_checkpoint` on it fails. -/
theorem checkpoint_consistency_cex :
    loadSucceeds (load_checkpoint (mkCheckpoint (Network.new 3 2 [2]))) = false := by
  decide

theorem mismatch_mem_checkErrors (m : Network) (sd : List (ParamName × Tensor))
    (n : ParamName) (tF tS : Tensor)
    (hF : findTensor m.state_dict n = some tF) (hS : findTensor sd n = some tS)
    (hne : tS.shape ≠ tF.shape) :
    LoadError.sizeMismatch n tS.shape tF.shape ∈ checkErrors m sd := by
  apply List.mem_append_left
  apply List.mem_flatMap.mpr
  refine ⟨(n, tF), findTensor_mem _ _ _ hF, ?_⟩
  dsimp only [checkOne]
  simp only [hS]
  rw [if_neg hne]
  exact List.mem_singleton.mpr rfl

theorem missing_mem_checkErrors (m : Network) (sd : List (ParamName × Tensor))
    (n : ParamName) (tF : Tensor)
    (hF : findTensor m.state_dict n = some tF) (hS : findTensor sd n = none) :
    LoadError.missingKey n ∈ checkErrors m sd := by
  apply List.mem_append_left
  apply List.mem_flatMap.mpr
  refine ⟨(n, tF), findTensor_mem _ _ _ hF, ?_⟩
  dsimp only [checkOne]
  simp only [hS]
  exact List.mem_singleton.mpr rfl

theorem unexpected_mem_checkErrors (m : Network) (sd : List (ParamName × Tensor))
    (n : ParamName) (tS : Tensor)
    (hS : findTensor sd n = some tS) (hF : findTensor m.state_dict n = none) :
    LoadError.unexpectedKey n ∈ checkErrors m sd := by
  apply List.mem_append_right
  apply List.mem_flatMap.mpr
  refine ⟨(n, tS), findTensor_mem _ _ _ hS, ?_⟩
  simp [hF]

theorem load_state_dict_error (m : Network) (sd : List (ParamName × Tensor))
    (hne : checkErrors m sd ≠ []) :
    m.load_state_dict sd = .error (checkErrors m sd) := by
  rw [Network.load_state_dict, if_neg hne]

theorem exists_get?_ne (ws ws' : List Nat) (h : ws' ≠ ws) :
    ∃ k, ws'.get? k ≠ ws.get? k := by
  by_contra hc
  push_neg at hc
  exact h (List.ext_get? hc)

theorem checkErrors_mismatch_ne_nil (ws ws' : List Nat)
    (assign : ParamName → List ℚ) (hne : ws' ≠ ws) :
    checkErrors (Network.new 784 10 ws')
      ((Network.new 784 10 ws).setData assign).state_dict ≠ [] := by
  obtain ⟨k, hk⟩ := exists_get?_ne ws ws' hne
  have hF := find_sd_hb (Network.new 784 10 ws') k
  have hS := find_setData_hb (Network.new 784 10 ws) assign k
  rw [show (Network.new 784 10 ws').hidden_layers = mkLayers 784 ws' from rfl] at hF
  rw [show (Network.new 784 10 ws).hidden_layers = mkLayers 784 ws from rfl] at hS
  cases hws' : ws'.get? k with
  | none =>
      cases hws : ws.get? k with
      | none =>
          rw [hws', hws] at hk
          exact absurd rfl hk
      | some h =>
          have hFn : findTensor (Network.new 784 10 ws').state_dict
              (.hiddenBias k) = none := by
            rw [hF, mkLayers_get?_none ws' 784 k hws']
            rfl
          have hmap := mkLayers_get?_bias_shape ws 784 k
          rw [hws] at hmap
          obtain ⟨l, hl, hlsh⟩ := Option.map_eq_some'.mp hmap
          have hSs : findTensor ((Network.new 784 10 ws).setData assign).state_dict
              (.hiddenBias k) = some (setT l.bias (assign (.hiddenBias k))) := by
            rw [hS, hl]
            rfl
          exact List.ne_nil_of_mem (unexpected_mem_checkErrors _ _ _ _ hSs hFn)
  | some h' =>
      have hmap' := mkLayers_get?_bias_shape ws' 784 k
      rw [hws'] at hmap'
      obtain ⟨lF, hlF, hlFsh⟩ := Option.map_eq_some'.mp hmap'
      have hFs : findTensor (Network.new 784 10 ws').state_dict
          (.hiddenBias k) = some lF.bias := by
        rw [hF, hlF]
        rfl
      cases hws : ws.get? k with
      | none =>
          have hSn : findTensor ((Network.new 784 10 ws).setData assign).state_dict
              (.hiddenBias k) = none := by
            rw [hS, mkLayers_get?_none ws 784 k hws]
            rfl
          exact List.ne_nil_of_mem (missing_mem_checkErrors _ _ _ _ hFs hSn)
      | some h =>
          have hmap := mkLayers_get?_bias_shape ws 784 k
          rw [hws] at hmap
          obtain ⟨lS, hlS, hlSsh⟩ := Option.map_eq_some'.mp hmap
          have hSs : findTensor ((Network.new 784 10 ws).setData assign).state_dict
              (.hiddenBias k) = some (setT lS.bias (assign (.hiddenBias k))) := by
            rw [hS, hlS]
            rfl
          have hshape : (setT lS.bias (assign (.hiddenBias k))).shape ≠ lF.bias.shape := by
            rw [setT_shape, hlSsh, hlFsh]
            intro hcon
            injection hcon with h1 h2
            exact hk (by rw [hws', hws, h1])
          exact List.ne_nil_of_mem (mismatch_mem_checkErrors _ _ _ _ _ hFs hSs hshape)

/-- C2: loading a saved state dict into a freshly constructed model whose
hidden-layer width sequence differs from the saved one fails — the call
raises with the collected error list, which names every parameter whose
saved shape disagrees with the fresh model's shape and every expected
parameter name the saved mapping lacks; and whenever a load succeeds, every
saved tensor's shape agreed exactly with the model's shape at that name, so
nothing was silently truncated or padded. -/
theorem load_mismatch_fails (ws ws' : List Nat) (assign : ParamName → List ℚ)
    (hne : ws' ≠ ws) :
    (Network.new 784 10 ws').load_state_dict
        ((Network.new 784 10 ws).setData assign).state_dict =
      .error (checkErrors (Network.new 784 10 ws')
        ((Network.new 784 10 ws).setData assign).state_dict) ∧
    checkErrors (Network.new 784 10 ws')
      ((Network.new 784 10 ws).setData assign).state_dict ≠ [] ∧
    (∀ n tF tS,
      findTensor (Network.new 784 10 ws').state_dict n = some tF →
      findTensor ((Network.new 784 10 ws).setData assign).state_dict n = some tS →
      tS.shape ≠ tF.shape →
      LoadError.sizeMismatch n tS.shape tF.shape ∈
        checkErrors (Network.new 784 10 ws')
          ((Network.new 784 10 ws).setData assign).state_dict) ∧
    (∀ n tF,
      findTensor (Network.new 784 10 ws').state_dict n = some tF →
      findTensor ((Network.new 784 10 ws).setData assign).state_dict n = none →
      LoadError.missingKey n ∈
        checkErrors (Network.new 784 10 ws')
          ((Network.new 784 10 ws).setData assign).state_dict) ∧
    (∀ (fresh : Network) (sd : List (ParamName × Tensor)) (m2 : Network),
      fresh.load_state_dict sd = .ok m2 →
      ∀ n tF tS, findTensor fresh.state_dict n = some tF →
        findTensor sd n = some tS → tS.shape = tF.shape) := by
  have hkey := checkErrors_mismatch_ne_nil ws ws' assign hne
  refine ⟨load_state_dict_error _ _ hkey, hkey, ?_, ?_, ?_⟩
  · intro n tF tS hF hS hsh
    exact mismatch_mem_checkErrors _ _ n tF tS hF hS hsh
  · intro n tF hF hS
    exact missing_mem_checkErrors _ _ n tF hF hS
  · intro fresh sd m2 hok n tF tS hF hS
    by_contra hsh
    have hmem := mismatch_mem_checkErrors fresh sd n tF tS hF hS hsh
    rw [Network.load_state_dict] at hok
    split at hok
    · next hempty =>
        rw [hempty] at hmem
        exact absurd hmem (List.not_mem_nil _)
    · exact Except.noConfusion hok

/-- Witness for C2 at saved widths `[1]` and reconstruction widths `[2]`. -/
theorem load_mismatch_fails_witness :
    (([2] : List Nat) ≠ [1]) ∧
    ((Network.new 784 10 [2]).load_state_dict
        ((Network.new 784 10 [1]).setData (fun _ => [])).state_dict =
      .error (checkErrors (Network.new 784 10 [2])
        ((Network.new 784 10 [1]).setData (fun _ => [])).state_dict) ∧
    checkErrors (Network.new 784 10 [2])
      ((Network.new 784 10 [1]).setData (fun _ => [])).state_dict ≠ [] ∧
    (∀ n tF tS,
      findTensor (Network.new 784 10 [2]).state_dict n = some tF →
      findTensor ((Network.new 784 10 [1]).setData (fun _ => [])).state_dict n = some tS →
      tS.shape ≠ tF.shape →
      LoadError.sizeMismatch n tS.shape tF.shape ∈
        checkErrors (Network.new 784 10 [2])
          ((Network.new 784 10 [1]).setData (fun _ => [])).state_dict) ∧
    (∀ n tF,
      findTensor (Network.new 784 10 [2]).state_dict n = some tF →
      findTensor ((Network.new 784 10 [1]).setData (fun _ => [])).state_dict n = none →
      LoadError.missingKey n ∈
        checkErrors (Network.new 784 10 [2])
          ((Network.new 784 10 [1]).setData (fun _ => [])).state_dict) ∧
    (∀ (fresh : Network) (sd : List (ParamName × Tensor)) (m2 : Network),
      fresh.load_state_dict sd = .ok m2 →
      ∀ n tF tS, findTensor fresh.state_dict n = some tF →
        findTensor sd n = some tS → tS.shape = tF.shape)) :=
  ⟨by decide, load_mismatch_fails [1] [2] (fun _ => []) (by decide)⟩

end SPAI
